import Mathlib

/-!
Verification of the ephemeral chat relay server.

The definitions below are a shallow embedding of the two server variants in
the repository:

* `src/src/main.rs` — the axum variant: `BroadcastEvent`, `BroadcastEventType`,
  `WebsocketMessage` decoding, `socket_listen` (the inbound read loop),
  the broadcast forwarding task and the teardown code of `handle_socket`.
* `src/server/src/main.rs` — the warp variant, whose client registry is a
  `HashMap<u128, ArcLock<Client>>`; modelled here for the registry claims.

Stateful loops are embedded as structural recursions over the list of values
the loop would receive; machine integers carry no arithmetic here, so ids are
plain `Nat`.
-/

namespace Ephemeral

/-- Broadcast event kind, transcribing `enum BroadcastEventType` of
src/src/main.rs lines 116-127.  The `Alert`, `Ok` and `Error` variants are
marked `#[allow(dead_code)]` in the source. -/
inductive BroadcastEventType where
  | Alert
  | Join
  | Leave
  | Ok
  | Error
  | Message
  deriving DecidableEq

/-- Server-wide broadcast event, transcribing `struct BroadcastEvent` of
src/src/main.rs lines 108-113. -/
structure BroadcastEvent where
  event : BroadcastEventType
  sender : Option String
  content : Option String
  deriving DecidableEq

/-- JSON values, the result of serde_json lexing of a text frame body. -/
inductive Json where
  | null
  | bool (b : Bool)
  | num (n : Int)
  | str (s : String)
  | arr (elems : List Json)
  | obj (fields : List (String × Json))

/-- Field scan of the derived `Deserialize` impl for
`struct WebsocketMessage { message: String }` (src/src/main.rs lines 183-186):
serde visits the object fields in order; an unknown key is ignored, a
duplicate `message` key or a non-string value is a deserialization error, and
the accumulator `found` is returned at the end (`none` there means the
required field was missing, an error). -/
def messageField : List (String × Json) → Option String → Option String
  | [], found => found
  | (k, v) :: rest, found =>
    if k = "message" then
      match found, v with
      | none, Json.str s => messageField rest (some s)
      | _, _ => none
    else
      messageField rest found

/-- Deserialization `serde_json::from_str::<WebsocketMessage>` applied to an
already-lexed JSON value: only an object with a single string `message`
field (other keys ignored) succeeds. -/
def websocketMessage : Json → Option String
  | Json.obj fields => messageField fields none
  | _ => none

/-- One successfully received websocket frame, as seen by the
`while let Some(Ok(Message::Text(message)))` loop of `socket_listen`
(src/src/main.rs line 272).  A text frame carries the result of serde_json
lexing of its body: `some j` when the body is valid JSON, `none` when it is
not.  `nonText` stands for any received frame that is not a text frame
(binary, ping, pong, close), which fails the `Message::Text` pattern and
therefore ends the loop. -/
inductive InFrame where
  | text (body : Option Json)
  | nonText

/-- Combined skip conditions of the read loop body (src/src/main.rs lines
273-283): a text body yields a usable message iff it lexes as JSON,
deserializes into `WebsocketMessage` (else `continue` at line 278), and the
resulting `message` string is non-empty (else `continue` at line 282). -/
def decodeText : Option Json → Option String
  | none => none
  | some j =>
    match websocketMessage j with
    | none => none
    | some m => if m.isEmpty then none else some m

/-- Join event as constructed at src/src/main.rs lines 301-305. -/
def joinEvent (name : String) : BroadcastEvent :=
  { event := BroadcastEventType.Join, sender := none, content := some name }

/-- Message event as constructed at src/src/main.rs lines 291-295. -/
def messageEvent (name text : String) : BroadcastEvent :=
  { event := BroadcastEventType.Message, sender := some name, content := some text }

/-- Leave event as constructed at src/src/main.rs lines 253-257. -/
def leaveEvent (name : String) : BroadcastEvent :=
  { event := BroadcastEventType.Leave, sender := none, content := some name }

/-- The inbound read loop `socket_listen` (src/src/main.rs lines 266-312),
run from a given username state over the list of frames the socket yields.
Returns the final username state together with the events passed to
`broadcast_tx.send`, in order.  A frame whose body fails to decode is skipped
(`continue`); with no username set, a decoded message is written into the
username cell and a Join event is published; with a username set, a decoded
message is published as a Message event.  A non-text frame fails the
`while let` pattern and ends the loop. -/
def socket_listen : Option String → List InFrame → Option String × List BroadcastEvent
  | username, [] => (username, [])
  | username, InFrame.text body :: rest =>
    (match decodeText body with
     | none => socket_listen username rest
     | some message =>
       match username with
       | some name =>
         let r := socket_listen (some name) rest
         (r.1, messageEvent name message :: r.2)
       | none =>
         let r := socket_listen (some message) rest
         (r.1, joinEvent message :: r.2))
  | username, InFrame.nonText :: _ => (username, [])

/-- The usable messages of a frame list: the successfully decoded texts, in
order, up to the first non-text frame.  This is the specification-level view
of the inbound stream against which `socket_listen` is characterized. -/
def decodedTexts : List InFrame → List String
  | [] => []
  | InFrame.text body :: rest =>
    (match decodeText body with
     | none => decodedTexts rest
     | some m => m :: decodedTexts rest)
  | InFrame.nonText :: _ => []

/-- Teardown code of `handle_socket` after the select block (src/src/main.rs
lines 249-263): precisely when the username cell was set, a single Leave
event is published. -/
def teardown : Option String → List BroadcastEvent
  | some name => [leaveEvent name]
  | none => []

/-- Result of one `broadcast_rx.recv().await` call, following the tokio
broadcast channel semantics: a received event, a lagged error (the receiver
fell behind by more than the channel capacity and missed events), or a closed
error (all senders dropped). -/
inductive RecvResult where
  | ok (e : BroadcastEvent)
  | lagged
  | closed

/-- Welcome messages of the index page (src/src/html/index.rs lines 6-9);
the forwarding task starts its counter at their length. -/
def WELCOME_MESSAGES : List String :=
  ["Welcome!", "Please type in a username in the box below and submit to join"]

/-- The broadcast forwarding task of `handle_socket` (src/src/main.rs lines
209-230), run over the list of recv results of this subscription; each entry
pairs the value the task reads from the shared username cell at that
iteration with the recv result.  Returns the (event, counter) pairs passed to
`into_htmx` and written to the socket, in order: an event is forwarded only
when the username cell is set, the counter advances only on a forwarded
event, and the `while let Ok(message)` pattern ends the loop at the first
lagged or closed recv error. -/
def broadcast_recieve :
    Nat → List (Option String × RecvResult) → List (BroadcastEvent × Nat)
  | _, [] => []
  | counter, (uname, RecvResult.ok e) :: rest =>
    (match uname with
     | some _ => (e, counter) :: broadcast_recieve (counter + 1) rest
     | none => broadcast_recieve counter rest)
  | _, (_, RecvResult.lagged) :: _ => []
  | _, (_, RecvResult.closed) :: _ => []

/-- The concurrent tasks of one connection in the axum variant. -/
inductive Duty where
  | socket_recieve_task
  | broadcast_recieve_task
  deriving DecidableEq

/-- The tasks spawned by `handle_socket` (src/src/main.rs lines 200-230):
one `tokio::spawn` for the inbound read loop (line 202) and one for the
broadcast forwarding loop (line 211).  Outbound writing is performed inline
by the forwarding task through `socket_tx.send`; there is no separate
outbound task. -/
def handle_socket_tasks : List Duty :=
  [Duty.socket_recieve_task, Duty.broadcast_recieve_task]

/-- All events one connection publishes to the bus over its lifetime: the
read loop publications followed by the teardown publication, which
`handle_socket` runs exactly once after the select block has ended both
tasks. -/
def handle_socket_published (l : List InFrame) : List BroadcastEvent :=
  (socket_listen none l).2 ++ teardown (socket_listen none l).1

/-- A frame whose body is the canonical envelope carrying the given text. -/
def goodFrame (s : String) : InFrame :=
  InFrame.text (some (Json.obj [("message", Json.str s)]))

/-- Emptiness after trimming: a string trims to the empty string iff every
one of its characters is whitespace. -/
def trimmedEmpty (s : String) : Bool :=
  s.toList.all Char.isWhitespace

/-- Malformed-payload predicate following the words of spec section 4.3:
decode fails when the frame is not valid text, is not parseable into the
expected envelope, or its text is empty after trimming. -/
def specMalformedPayload : InFrame → Bool
  | InFrame.text (some j) =>
    (match websocketMessage j with
     | some m => trimmedEmpty m
     | none => true)
  | InFrame.text none => true
  | InFrame.nonText => true

/-- Amended malformed-payload predicate: as `specMalformedPayload` but with
the emptiness test the code performs (`message.is_empty()`, no trimming). -/
def specMalformedPayloadAmended : InFrame → Bool
  | InFrame.text (some j) =>
    (match websocketMessage j with
     | some m => m.isEmpty
     | none => true)
  | InFrame.text none => true
  | InFrame.nonText => true

/-- The decode outcome the code gives a single inbound frame: the usable
message of a text frame, nothing for a non-text frame. -/
def codeDecode : InFrame → Option String
  | InFrame.text body => decodeText body
  | InFrame.nonText => none

/-- Client record of the warp variant (src/server/src/main.rs lines 75-79),
without the channel handle. -/
structure Client where
  uuid : Nat
  username : Option String
  deriving DecidableEq

/-- Insert of `std::collections::HashMap` as used at src/server/src/main.rs
line 103, on an association list with unique keys: an existing entry for the
key is replaced, otherwise the pair is appended. -/
def hashMapInsert : List (Nat × Client) → Nat → Client → List (Nat × Client)
  | [], i, c => [(i, c)]
  | (k, v) :: rest, i, c =>
    if k = i then (i, c) :: rest else (k, v) :: hashMapInsert rest i c

/-- Lookup on the association-list registry. -/
def hashMapGet : List (Nat × Client) → Nat → Option Client
  | [], _ => none
  | (k, v) :: rest, i => if k = i then some v else hashMapGet rest i

/-! Helper lemmas shared by the claim theorems. -/

/-- Once the username is set, the read loop never changes it again, and every
further decoded message is published as a Message event from that name. -/
theorem socket_listen_named (name : String) (l : List InFrame) :
    socket_listen (some name) l = (some name, (decodedTexts l).map (messageEvent name)) := by
  induction l with
  | nil => rfl
  | cons f rest ih =>
    cases f with
    | text body =>
      cases h : decodeText body with
      | none => simp [socket_listen, decodedTexts, h, ih]
      | some m => simp [socket_listen, decodedTexts, h, ih]
    | nonText => rfl

/-- From the anonymous state, the read loop consumes the first decoded
message as the username, publishing a Join for it, and publishes a Message
from that name for every later decoded message. -/
theorem socket_listen_anon (l : List InFrame) :
    socket_listen none l =
      (match decodedTexts l with
       | [] => (none, [])
       | m :: ms => (some m, joinEvent m :: ms.map (messageEvent m))) := by
  induction l with
  | nil => rfl
  | cons f rest ih =>
    cases f with
    | text body =>
      cases h : decodeText body with
      | none => simp [socket_listen, decodedTexts, h, ih]
      | some m => simp [socket_listen, decodedTexts, h, socket_listen_named]
    | nonText => rfl

/-- Every event the read loop publishes is a Join or a Message. -/
theorem socket_listen_kinds (st : Option String) (l : List InFrame) :
    ∀ e ∈ (socket_listen st l).2,
      e.event = BroadcastEventType.Join ∨ e.event = BroadcastEventType.Message := by
  induction l generalizing st with
  | nil => simp [socket_listen]
  | cons f rest ih =>
    cases f with
    | text body =>
      cases h : decodeText body with
      | none => simpa [socket_listen, h] using ih st
      | some m =>
        cases st with
        | some name =>
          intro e he
          simp [socket_listen, h] at he
          rcases he with he | he
          · rw [he]; exact Or.inr rfl
          · exact ih (some name) e he
        | none =>
          intro e he
          simp [socket_listen, h] at he
          rcases he with he | he
          · rw [he]; exact Or.inl rfl
          · exact ih (some m) e he
    | nonText => simp [socket_listen]

/-- Every counter value attached to a forwarded event is at least the counter
value the loop started from. -/
theorem broadcast_recieve_counter_le (counter : Nat)
    (l : List (Option String × RecvResult)) :
    ∀ p ∈ broadcast_recieve counter l, counter ≤ p.2 := by
  induction l generalizing counter with
  | nil => simp [broadcast_recieve]
  | cons x rest ih =>
    obtain ⟨uname, r⟩ := x
    cases r with
    | ok e =>
      cases uname with
      | none => simpa [broadcast_recieve] using ih counter
      | some nm =>
        intro p hp
        simp [broadcast_recieve] at hp
        rcases hp with hp | hp
        · rw [hp]
        · exact Nat.le_of_succ_le (ih (counter + 1) p hp)
    | lagged => simp [broadcast_recieve]
    | closed => simp [broadcast_recieve]

/-! Claim theorems. -/

/-- C1: no broadcast event is forwarded to a session while its username cell
is still unset, and every event received while the username cell is set — the
loop still being alive, all prior recv calls having returned an event — is
forwarded to the session.  Part one: every forwarded event was received at an
iteration that observed a set username.  Part two: an event received at an
iteration that observes a set username, with every earlier recv returning ok,
is forwarded. -/
theorem broadcast_gating (counter : Nat) (l : List (Option String × RecvResult)) :
    (∀ e n, (e, n) ∈ broadcast_recieve counter l →
      ∃ name, (some name, RecvResult.ok e) ∈ l) ∧
    (∀ pre name e rest,
      l = pre ++ (some name, RecvResult.ok e) :: rest →
      (∀ p ∈ pre, ∃ ev, p.2 = RecvResult.ok ev) →
      ∃ n, (e, n) ∈ broadcast_recieve counter l) := by
  constructor
  · induction l generalizing counter with
    | nil => simp [broadcast_recieve]
    | cons x rest ih =>
      obtain ⟨uname, r⟩ := x
      cases r with
      | ok ev =>
        cases uname with
        | none =>
          intro e n hm
          obtain ⟨name, hname⟩ := ih counter e n (by simpa [broadcast_recieve] using hm)
          exact ⟨name, List.mem_cons_of_mem _ hname⟩
        | some nm =>
          intro e n hm
          simp [broadcast_recieve] at hm
          rcases hm with ⟨he, _⟩ | hm
          · exact ⟨nm, by simp [he]⟩
          · obtain ⟨name, hname⟩ := ih (counter + 1) e n hm
            exact ⟨name, List.mem_cons_of_mem _ hname⟩
      | lagged => intro e n hm; simp [broadcast_recieve] at hm
      | closed => intro e n hm; simp [broadcast_recieve] at hm
  · intro pre name e rest hl hok
    subst hl
    revert hok
    induction pre generalizing counter with
    | nil =>
      intro _
      exact ⟨counter, by simp [broadcast_recieve]⟩
    | cons p pre ih =>
      intro hok
      obtain ⟨uname, r⟩ := p
      obtain ⟨ev, hev⟩ := hok (uname, r) (List.mem_cons_self _ _)
      simp only at hev
      subst hev
      have hok2 : ∀ q ∈ pre, ∃ ev2, q.2 = RecvResult.ok ev2 := fun q hq =>
        hok q (List.mem_cons_of_mem _ hq)
      cases uname with
      | none =>
        obtain ⟨n, hn⟩ := ih counter hok2
        exact ⟨n, by simpa [broadcast_recieve] using hn⟩
      | some nm =>
        obtain ⟨n, hn⟩ := ih (counter + 1) hok2
        refine ⟨n, ?_⟩
        simp [broadcast_recieve]
        exact Or.inr hn

/-- C1 witness: an event received while the username cell holds a name, with
no earlier recv in the run, is forwarded. -/
theorem broadcast_gating_witness :
    ∃ n, (joinEvent "alice", n) ∈
      broadcast_recieve 2 [(some "alice", RecvResult.ok (joinEvent "alice"))] :=
  (broadcast_gating 2 [(some "alice", RecvResult.ok (joinEvent "alice"))]).2
    [] "alice" (joinEvent "alice") [] rfl (fun p hp => absurd hp (List.not_mem_nil p))

/-- C2: starting anonymous, the first decoded non-empty text is consumed as
the display name — it is published as the single Join event, sender none and
content the name, not as a Message — and every later decoded text is
published as a Message event from that name, so the Join precedes every
Message of the session; moreover a username, once set, is never changed by
the read loop. -/
theorem socket_listen_names_then_messages (l : List InFrame) :
    socket_listen none l =
      (match decodedTexts l with
       | [] => (none, [])
       | m :: ms => (some m, joinEvent m :: ms.map (messageEvent m))) ∧
    ∀ name, socket_listen (some name) l =
      (some name, (decodedTexts l).map (messageEvent name)) :=
  ⟨socket_listen_anon l, fun name => socket_listen_named name l⟩

/-- C3: teardown publishes exactly one Leave event, sender none and content
the session name, precisely when the session decoded at least one message —
that is, when it reached the named state — and publishes nothing for a
session that disconnects while still anonymous. -/
theorem teardown_leave_iff_named (l : List InFrame) :
    teardown (socket_listen none l).1 =
      (match decodedTexts l with
       | [] => []
       | m :: _ => [leaveEvent m]) := by
  rw [socket_listen_anon]
  cases decodedTexts l <;> rfl

/-- C4 counterexample: a non-text frame is fatal to the read loop.  With the
frame sequence [non-text, valid envelope declaring the name alice], the loop
stops at the non-text frame: the later valid frame is not processed (compare
the run without the non-text frame), no username is ever set, no Error event
is delivered, and the connection publishes nothing at all over its whole
lifetime. -/
theorem socket_listen_nonText_fatal :
    socket_listen none [InFrame.nonText, goodFrame "alice"] = (none, []) ∧
    socket_listen none [goodFrame "alice"] = (some "alice", [joinEvent "alice"]) ∧
    handle_socket_published [InFrame.nonText, goodFrame "alice"] = [] := by
  refine ⟨by decide, by decide, by decide⟩

/-- C4 amended: a text frame that fails to decode — unparseable body or an
empty message — is skipped without terminating the read loop, subsequent
frames are processed exactly as if it had never arrived, and no Error event
is produced; a non-text frame, however, ends the read loop. -/
theorem malformed_text_skipped (st : Option String) (body : Option Json)
    (l : List InFrame) (h : decodeText body = none) :
    socket_listen st (InFrame.text body :: l) = socket_listen st l ∧
    ∀ e ∈ (socket_listen st (InFrame.text body :: l)).2,
      e.event ≠ BroadcastEventType.Error := by
  refine ⟨by simp [socket_listen, h], ?_⟩
  intro e he
  rcases socket_listen_kinds st (InFrame.text body :: l) e he with hk | hk <;>
    (rw [hk]; decide)

/-- C4 witness: a text frame whose body is not the expected envelope is
skipped by the read loop. -/
theorem malformed_text_skipped_witness :
    decodeText (some Json.null) = none ∧
    socket_listen none [InFrame.text (some Json.null)] = socket_listen none [] :=
  ⟨rfl, (malformed_text_skipped none (some Json.null) [] rfl).1⟩

/-- C5 counterexample: the envelope carrying a single-space message is a
MalformedPayload by the words of the spec — its text is empty after trimming
— yet the code accepts it: the decode succeeds with the single-space string,
and a session whose first frame it is even takes the single space as its
display name and publishes a Join for it. -/
theorem whitespace_message_accepted :
    specMalformedPayload (goodFrame " ") = true ∧
    codeDecode (goodFrame " ") = some " " ∧
    socket_listen none [goodFrame " "] = (some " ", [joinEvent " "]) := by
  refine ⟨by decide, by decide, by decide⟩

/-- C5 amended: decoding an inbound frame fails exactly when the frame is not
a text frame carrying valid JSON, does not deserialize into the expected
single-field envelope, or its message is the empty string — with no
trimming. -/
theorem decode_fails_iff_malformed (f : InFrame) :
    (codeDecode f).isNone = specMalformedPayloadAmended f := by
  cases f with
  | nonText => rfl
  | text body =>
    cases body with
    | none => rfl
    | some j =>
      cases h : websocketMessage j with
      | none => simp [codeDecode, decodeText, specMalformedPayloadAmended, h]
      | some m =>
        cases hm : m.isEmpty <;>
          simp [codeDecode, decodeText, specMalformedPayloadAmended, h, hm]

/-- C6 counterexample: a subscriber that falls behind does not keep
operating.  In a run that receives one event, then a lagged error, then
another event, only the first event is forwarded: the loop exits at the
lagged error, so the event received after the gap is never delivered. -/
theorem lagged_subscriber_stops :
    broadcast_recieve 2
      [(some "alice", RecvResult.ok (joinEvent "bob")),
       (some "alice", RecvResult.lagged),
       (some "alice", RecvResult.ok (messageEvent "bob" "hi"))] =
      [(joinEvent "bob", 2)] := by decide

/-- C6 amended: an overrun surfaces to the lagging subscriber alone as a
lagged recv error, but the forwarding loop terminates on it rather than
continuing: the run of the loop over any stream containing a lagged result
equals its run over the prefix before that result, whatever follows. -/
theorem broadcast_recieve_stops_at_lag (counter : Nat)
    (pre post : List (Option String × RecvResult)) (u : Option String) :
    broadcast_recieve counter (pre ++ (u, RecvResult.lagged) :: post) =
      broadcast_recieve counter pre := by
  induction pre generalizing counter with
  | nil => rfl
  | cons p rest ih =>
    obtain ⟨uname, r⟩ := p
    cases r with
    | ok e => cases uname <;> simp [broadcast_recieve, ih]
    | lagged => rfl
    | closed => rfl

/-- C7 counterexample: the supervisor spawns exactly two concurrent tasks per
connection — the inbound read loop and the broadcast forwarding loop, the
latter writing to the socket inline — not three. -/
theorem two_duties_not_three :
    handle_socket_tasks.length = 2 ∧ handle_socket_tasks.length ≠ 3 := by decide

/-- C7 amended: exactly two tasks run concurrently per connection; whichever
ends first aborts the other, and the teardown code afterwards runs exactly
once: over the whole lifetime of a connection exactly one Leave event is
published when the session was named and none otherwise, and no Leave is ever
published by the read loop itself. -/
theorem supervisor_two_tasks_teardown_once (l : List InFrame) :
    handle_socket_tasks.length = 2 ∧
    List.countP (fun e => decide (e.event = BroadcastEventType.Leave))
        (handle_socket_published l) =
      (if (socket_listen none l).1.isSome then 1 else 0) ∧
    ∀ e ∈ (socket_listen none l).2, e.event ≠ BroadcastEventType.Leave := by
  refine ⟨rfl, ?_, ?_⟩
  · have hz : List.countP (fun e => decide (e.event = BroadcastEventType.Leave))
        (socket_listen none l).2 = 0 := by
      rw [List.countP_eq_zero]
      intro e he
      rcases socket_listen_kinds none l e he with hk | hk <;> simp [hk]
    rw [handle_socket_published, List.countP_append, hz]
    cases hst : (socket_listen none l).1 <;>
      simp [teardown, List.countP_cons, leaveEvent]
  · intro e he
    rcases socket_listen_kinds none l e he with hk | hk <;> (rw [hk]; decide)

/-- C7 witness: a connection that declares the name alice publishes exactly
one Leave event over its lifetime. -/
theorem supervisor_two_tasks_teardown_once_witness :
    List.countP (fun e => decide (e.event = BroadcastEventType.Leave))
      (handle_socket_published [goodFrame "alice"]) = 1 := by
  rw [(supervisor_two_tasks_teardown_once [goodFrame "alice"]).2.1]
  decide

/-- C8: in any run of the forwarding loop, the counter values attached to the
events actually delivered to the session — the second argument of each
`into_htmx` call — are strictly increasing: each delivered event carries a
counter strictly greater than the previous delivered one. -/
theorem delivered_counters_strictly_increase (counter : Nat)
    (l : List (Option String × RecvResult)) :
    List.Chain' (fun a b => a < b) ((broadcast_recieve counter l).map Prod.snd) := by
  induction l generalizing counter with
  | nil => simp [broadcast_recieve]
  | cons x rest ih =>
    obtain ⟨uname, r⟩ := x
    cases r with
    | ok e =>
      cases uname with
      | none => simpa [broadcast_recieve] using ih counter
      | some nm =>
        show List.Chain' (fun a b => a < b)
          (((e, counter) :: broadcast_recieve (counter + 1) rest).map Prod.snd)
        rw [List.map_cons]
        refine List.chain'_cons'.mpr ⟨?_, ih (counter + 1)⟩
        intro y hy
        have hmem : y ∈ (broadcast_recieve (counter + 1) rest).map Prod.snd :=
          List.mem_of_mem_head? hy
        obtain ⟨p, hp, hpy⟩ := List.mem_map.mp hmem
        have hle := broadcast_recieve_counter_le (counter + 1) rest p hp
        omega
    | lagged => simp [broadcast_recieve]
    | closed => simp [broadcast_recieve]

/-- C9 counterexample: the registry insert used by the warp variant silently
replaces.  Inserting a second client under an id already present neither
fails nor leaves the existing entry unchanged: the lookup afterwards returns
the new client, which differs from the old one. -/
theorem insert_replaces_existing :
    hashMapGet (hashMapInsert [(5, Client.mk 5 none)] 5 (Client.mk 5 (some "bob"))) 5 =
      some (Client.mk 5 (some "bob")) ∧
    Client.mk 5 (some "bob") ≠ Client.mk 5 none := by decide

/-- C9 amended: insert adds a new entry when the id is absent and silently
replaces the existing entry when the id is already present — it never fails —
and entries under every other id are untouched. -/
theorem insert_semantics (m : List (Nat × Client)) (i : Nat) (c : Client) :
    hashMapGet (hashMapInsert m i c) i = some c ∧
    ∀ k, k ≠ i → hashMapGet (hashMapInsert m i c) k = hashMapGet m k := by
  constructor
  · induction m with
    | nil => simp [hashMapInsert, hashMapGet]
    | cons p rest ih =>
      obtain ⟨k0, v0⟩ := p
      by_cases h : k0 = i <;> simp [hashMapInsert, hashMapGet, h, ih]
  · intro k hk
    induction m with
    | nil => simp [hashMapInsert, hashMapGet, Ne.symm hk]
    | cons p rest ih =>
      obtain ⟨k0, v0⟩ := p
      by_cases h : k0 = i
      · subst h
        simp [hashMapInsert, hashMapGet, Ne.symm hk]
      · by_cases h2 : k0 = k <;> simp [hashMapInsert, hashMapGet, h, h2, ih, hk]

/-- C9 witness: inserting under a fresh id leaves the entry under a different
id unchanged. -/
theorem insert_semantics_witness :
    hashMapGet (hashMapInsert [(5, Client.mk 5 none)] 7 (Client.mk 7 none)) 5 =
      hashMapGet [(5, Client.mk 5 none)] 5 :=
  (insert_semantics [(5, Client.mk 5 none)] 7 (Client.mk 7 none)).2 5 (by decide)

/-- C10: every event a connection ever publishes to the bus — through the
read loop or through teardown — has kind Join, Leave or Message; in
particular no Alert, Ok or Error event is ever published, so no Error event
can reach any client through the bus. -/
theorem published_kinds (st : Option String) (l : List InFrame) :
    ∀ e ∈ (socket_listen st l).2 ++ teardown (socket_listen st l).1,
      e.event = BroadcastEventType.Join ∨ e.event = BroadcastEventType.Leave ∨
        e.event = BroadcastEventType.Message := by
  intro e he
  rcases List.mem_append.mp he with h | h
  · rcases socket_listen_kinds st l e h with hk | hk
    · exact Or.inl hk
    · exact Or.inr (Or.inr hk)
  · cases hst : (socket_listen st l).1 with
    | none => rw [hst] at h; simp [teardown] at h
    | some name =>
      rw [hst] at h
      simp [teardown] at h
      rw [h]
      exact Or.inr (Or.inl rfl)

/-- C10 witness: the Join event published by a session that declares the name
alice has one of the three published kinds. -/
theorem published_kinds_witness :
    (joinEvent "alice").event = BroadcastEventType.Join ∨
      (joinEvent "alice").event = BroadcastEventType.Leave ∨
        (joinEvent "alice").event = BroadcastEventType.Message :=
  published_kinds none [goodFrame "alice"] (joinEvent "alice") (by decide)

end Ephemeral
